import Mathlib

/-!
Verification of the address-racing bootstrap subsystem
(`provider/common/bootstrap.go`).

The Go code is shallowly embedded: pure computations become Lean
functions; the concurrent `select` loops (`waitSSH`, `hostChecker.loop`)
become step functions driven by an explicit list of observed events, so
that every interleaving the scheduler could produce corresponds to some
event list.  Go channels used as cancellation signals are modelled by a
close counter (Go panics when `close` is applied to an already-closed
channel, which we model as `Option.none`).  Durations (`time.Duration`)
are modelled as natural numbers.
-/

namespace JujuCommon

/-- Modelled from the spec: the scope of a network address
(`network.Address` lives outside the provided sources; the spec describes
an address as a string value plus a public/private/cloud-local scope). -/
inductive AddressScope where
  | publicScope
  | privateScope
  | cloudLocal
deriving DecidableEq

/-- Modelled from the spec: a network endpoint value, immutable once
observed, used as a map key by the race coordinator (so equality is
structural and decidable). -/
structure Address where
  Value : String
  scope : AddressScope
deriving DecidableEq

/-- Modelled from the spec: a Go `error` value as compared by `waitSSH`.
The distinguished constructor stands for the identity of
`parallel.ErrStopped`, the marker meaning the race primitive was closed
cleanly; every other error is carried as its message text. -/
inductive GoError where
  | errStopped
  | msg (s : String)
deriving DecidableEq

/-- Modelled from the spec: the message text of a `GoError` as rendered
by a `%v` format verb.  The text of `parallel.ErrStopped` comes from the
external parallel library; the claims compare `errStopped` by identity
only, never by text. -/
def goErrString : GoError → String
  | .errStopped => "try was stopped"
  | .msg s => s

/-- Character-level worker for `sprintf`: scans the format, replacing
each `%v` or `%s` verb by the next argument (arguments are spliced
verbatim, not rescanned, as in Go's `fmt`). -/
def formatVAux : List Char → List String → List Char
  | [], _ => []
  | [c], _ => [c]
  | c :: c2 :: rest, args =>
    if c = '%' ∧ (c2 = 'v' ∨ c2 = 's') then
      match args with
      | a :: args2 => a.data ++ formatVAux rest args2
      | [] => c :: formatVAux (c2 :: rest) args
    else c :: formatVAux (c2 :: rest) args

/-- Model of Go's `fmt.Sprintf` restricted to the `%v` and `%s` verbs,
the only verbs the embedded code uses. -/
def sprintf (format : String) (args : List String) : String :=
  String.mk (formatVAux format.data args)

/-- Modelled from the spec: the `%v` rendering of a `time.Duration`.
The pretty-printer of the external time library is replaced by the
numeric rendering; no claim depends on how the duration is printed. -/
def durationString (d : Nat) : String := toString d

/-- Go `unicode.IsSpace` restricted to the ASCII whitespace characters
(sufficient for the claims, which never hinge on exotic whitespace). -/
def goIsSpace (c : Char) : Bool :=
  c = ' ' || c = '\t' || c = '\n' || c = '\x0b' || c = '\x0c' || c = '\r'

/-- Model of Go's `strings.TrimSpace`: drop leading and trailing
whitespace. -/
def trimSpace (s : String) : String :=
  String.mk (((s.data.dropWhile goIsSpace).reverse.dropWhile goIsSpace).reverse)

/-- The single-quote character, written by code point to keep string
literals free of quoting subtleties. -/
def squote : Char := Char.ofNat 39

/-- Modelled from the spec: the character-level body of the external
`utils.ShQuote` helper, which escapes every embedded single quote. -/
def shQuoteChars : List Char → List Char
  | [] => []
  | c :: rest =>
    if c = squote then squote :: '"' :: squote :: '"' :: squote :: shQuoteChars rest
    else c :: shQuoteChars rest

/-- Modelled from the spec: the external `utils.ShQuote`, wrapping a
string in single quotes with internal quotes escaped. -/
def shQuote (s : String) : String :=
  String.mk (squote :: (shQuoteChars s.data ++ [squote]))

/-- Modelled from the spec: the result of running one remote command and
collecting its combined output — the output text plus an optional
transport/exit error (`none` means the command exited zero). -/
structure CmdResult where
  output : String
  err : Option String

/-- Modelled from the spec: the remote session capability
(`ssh.Client`, which lives outside the provided sources).  `runCommand`
models `client.Command(userHost, args, nil)` with the given standard
input followed by `CombinedOutput()`. -/
structure SSHClient where
  runCommand : String → List String → String → CmdResult

/-- Embeds `connectSSH` (bootstrap.go): run the check script on the host
as the `ubuntu` administrative account via `/bin/bash`; when the run
fails and produced output, the error becomes the trimmed combined
output, otherwise the raw error is returned unchanged. -/
def connectSSH (client : SSHClient) (host checkHostScript : String) : Option String :=
  let res := client.runCommand ("ubuntu@" ++ host) ["/bin/bash"] checkHostScript
  match res.err with
  | none => none
  | some e => if 0 < res.output.length then some (trimSpace res.output) else some e

/-- Embeds the raw-string format of the nonce-check script built in
`FinishBootstrap` (bootstrap.go): both `%s` holes receive shell-quoted
values. -/
def checkNonceCommandTemplate : String :=
  "\n\tnoncefile=%s\n\tif [ ! -e \"$noncefile\" ]; then\n\t\techo \"$noncefile does not exist\" >&2\n\t\texit 1\n\tfi\n\tcontent=$(cat $noncefile)\n\tif [ \"$content\" != %s ]; then\n\t\techo \"$noncefile contents do not match machine nonce\" >&2\n\t\texit 1\n\tfi\n\t"

/-- Embeds the construction of `checkNonceCommand` in `FinishBootstrap`:
the shell-quoted nonce-file path (already joined from the data directory
and the nonce file name) and the shell-quoted machine nonce are
substituted into the template. -/
def checkNonceCommand (nonceFilePath machineNonce : String) : String :=
  sprintf checkNonceCommandTemplate [shQuote nonceFilePath, shQuote machineNonce]

/-- Outcome of running a shell script: its exit code and the lines
written to standard error. -/
structure ScriptResult where
  exitCode : Nat
  stderrLines : List String
deriving DecidableEq

/-- Modelled from the spec: the bash evaluation of the script built by
`checkNonceCommand` (bash itself is external to the repository).  The
variable `noncefile` holds the unquoted path; the script exits 1 after
echoing a distinct message to stderr when the file is absent, exits 1
after echoing a different message when the contents differ from the
machine nonce, and exits 0 otherwise.  `fileContent` is the remote
file's contents, `none` when the file does not exist. -/
def runCheckNonceScript (nonceFilePath machineNonce : String)
    (fileContent : Option String) : ScriptResult :=
  match fileContent with
  | none =>
    { exitCode := 1, stderrLines := [nonceFilePath ++ " does not exist"] }
  | some content =>
    if content = machineNonce then { exitCode := 0, stderrLines := [] }
    else
      { exitCode := 1
        stderrLines := [nonceFilePath ++ " contents do not match machine nonce"] }

/-- Embeds the `hostChecker` struct (bootstrap.go): one probe for one
address.  The client, wait group and `closed` channel are concurrency
plumbing represented elsewhere (the client as a `loop` argument, the
signals as events). -/
structure HostChecker where
  addr : Address
  checkDelay : Nat
  checkHostScript : String
deriving DecidableEq

/-- What `hostChecker.loop` can observe at its result `select`: its
per-address `closed` signal, the shared `dying` signal, or the arrival
of a `connectSSH` result on the `done` channel. -/
inductive ProbeEvent where
  | closedSignal
  | dyingSignal
  | attemptResult (err : Option String)
deriving DecidableEq

/-- Externally visible actions of one probe: spawning a `connectSSH`
attempt against its target, and sleeping `checkDelay` between
attempts. -/
inductive ProbeAct where
  | attempt (target : String) (script : String)
  | sleep (d : Nat)
deriving DecidableEq

/-- Result of running `hostChecker.loop` against a finite event
schedule: either the loop returned (with the Go function's error
value), or the schedule ran out with the loop still going. -/
inductive LoopResult where
  | finished (lastErr : Option String)
  | outOfEvents (lastErr : Option String)
deriving DecidableEq

/-- Embeds `hostChecker.loop` (bootstrap.go) as a step function over an
event schedule.  Each iteration spawns a `connectSSH` attempt and then
selects on `closed` / `dying` / `done`; a nil result returns success, a
non-nil result is recorded in `lastErr` and the loop sleeps and
retries.  The inter-attempt `select` on `closed` / `dying` /
`time.After(checkDelay)` falls through in all three cases without
touching any state, so a cancellation that fires during the sleep is
represented by the corresponding signal event at the next iteration's
result `select` (the channel stays closed and remains ready). -/
def hostCheckerLoop (hc : HostChecker) (lastErr : Option String) :
    List ProbeEvent → LoopResult × List ProbeAct
  | [] => (.outOfEvents lastErr, [.attempt hc.addr.Value hc.checkHostScript])
  | e :: es =>
    match e with
    | .closedSignal => (.finished lastErr, [.attempt hc.addr.Value hc.checkHostScript])
    | .dyingSignal => (.finished lastErr, [.attempt hc.addr.Value hc.checkHostScript])
    | .attemptResult none => (.finished none, [.attempt hc.addr.Value hc.checkHostScript])
    | .attemptResult (some m) =>
      let r := hostCheckerLoop hc (some m) es
      (r.1, .attempt hc.addr.Value hc.checkHostScript :: .sleep hc.checkDelay :: r.2)

/-- The schedule seen by a probe all of whose attempts fail, with the
given failure messages, and which is never cancelled. -/
def failEvents (fs : List String) : List ProbeEvent :=
  fs.map fun m => ProbeEvent.attemptResult (some m)

/-- The action trace of a probe that observes the given failed attempts:
an attempt, then a `checkDelay` sleep, per failure, plus the attempt
spawned at the iteration the probe is currently waiting on. -/
def failTrace (hc : HostChecker) : List String → List ProbeAct
  | [] => [.attempt hc.addr.Value hc.checkHostScript]
  | _ :: rest =>
    .attempt hc.addr.Value hc.checkHostScript :: .sleep hc.checkDelay :: failTrace hc rest

/-- The probe's `lastErr` variable after observing the given failure
messages, starting from `le` (Go initialises it to nil). -/
def lastAttemptError : Option String → List String → Option String
  | le, [] => le
  | _, m :: rest => lastAttemptError (some m) rest

/-- Modelled from the spec: the three caller-supplied durations of
`config.SSHTimeoutOpts` (the config package lives outside the provided
sources): the global deadline, the per-probe retry delay, and the
address re-poll delay. -/
structure SSHTimeoutOpts where
  Timeout : Nat
  RetryDelay : Nat
  AddressesDelay : Nat
deriving DecidableEq

/-- Embeds the mutable state of `parallelHostChecker` (bootstrap.go).
`active` is the address-to-cancellation-signal map, as an
insertion-ordered association list; each signal is a Go channel
represented by the number of times `close` has been executed on it
(`0` = still open).  `started` records the address of every probe ever
handed to `Try.Start`, and `stderr` the progress text written so far.
`tryClosed` mirrors the external `parallel.Try`'s closed flag. -/
structure PHCState where
  tryClosed : Bool
  active : List (Address × Nat)
  checkDelay : Nat
  checkHostScript : String
  started : List Address
  stderr : List String
deriving DecidableEq

/-- The loop body of `parallelHostChecker.UpdateAddresses` for one
address: an address already present in `active` is skipped; a new
address gets a progress notice, a fresh open signal in `active`, and a
probe started for it. -/
def admitOne (q : PHCState) (addr : Address) : PHCState :=
  if addr ∈ q.active.map Prod.fst then q
  else
    { q with
      stderr := q.stderr ++ [sprintf "Attempting to connect to %s:22\n" [addr.Value]]
      active := q.active ++ [(addr, 0)]
      started := q.started ++ [addr] }

/-- Embeds `parallelHostChecker.UpdateAddresses` (bootstrap.go): fold
the loop body over the fetched address list. -/
def PHCState.UpdateAddresses (p : PHCState) (addrs : List Address) : PHCState :=
  addrs.foldl admitOne p

/-- Embeds `parallelHostChecker.Close` (bootstrap.go): close the
`parallel.Try` and then `close(ch)` every signal in `active`.  Go
panics when `close` is applied to an already-closed channel, so the
call is modelled as `none` exactly when some tracked signal has already
been closed; otherwise every tracked signal's close count rises to
one. -/
def PHCState.Close (p : PHCState) : Option PHCState :=
  if p.active.any (fun e => e.2 != 0) then none
  else
    some { p with tryClosed := true, active := p.active.map fun e => (e.1, e.2 + 1) }

/-- What the `select` at the heart of `waitSSH` (bootstrap.go) can
observe in one iteration.  The payloads carry the outcomes of the
external calls made inside the corresponding branch: the poll event
carries the results of `inst.Refresh()` and `inst.Addresses()`; the
deadline event carries the error drained by `checker.Wait()`; the dead
event carries `checker.Result()` — the winning probe's address, or the
race primitive's error. -/
inductive Event where
  | poll (refreshErr : Option String) (addrsResult : Except String (List Address))
  | globalTimeout (drained : Option GoError)
  | interrupted
  | tryDead (result : Except GoError Address)

/-- Terminal outcome of `waitSSH`: the winning address value, an error
message, or a Go runtime panic (close of a closed channel). -/
inductive Outcome where
  | success (addr : String)
  | failure (msg : String)
  | panicked
deriving DecidableEq

/-- One `waitSSH` iteration either continues the loop with an updated
checker state or stops with a terminal outcome (keeping the final
checker state, so that post-mortem facts about `active` can be
stated). -/
inductive StepOut where
  | next (p : PHCState)
  | stop (o : Outcome) (p : PHCState)
deriving DecidableEq

/-- Embeds the error-message construction of the `globalTimeout` branch
of `waitSSH` (bootstrap.go): a format string and argument list are
accumulated — the branch text chosen by whether `active` is empty, the
drained error appended only when present and not `parallel.ErrStopped`
— and then formatted. -/
def timeoutMessage (T : Nat) (activeEmpty : Bool) (lastErr : Option GoError) : String :=
  let format := "waited for %v "
  let args : List String := [durationString T]
  let format :=
    if activeEmpty then format ++ "without getting any addresses"
    else format ++ "without being able to connect"
  let fa : String × List String :=
    match lastErr with
    | some e =>
      if e = GoError.errStopped then (format, args)
      else (format ++ ": %v", args ++ [goErrString e])
    | none => (format, args)
  sprintf fa.1 fa.2

/-- The text appended for the drained coordinator error in the deadline
message: empty when the error is absent or is the `parallel.ErrStopped`
marker, and ": text" otherwise. -/
def drainSuffix : Option GoError → String
  | some e => if e = GoError.errStopped then "" else ": " ++ goErrString e
  | none => ""

/-- Embeds one iteration of the `waitSSH` select loop (bootstrap.go):
a poll re-fetches addresses (a fetch error is returned at once with its
context, a success admits the addresses); the global deadline closes
and drains the checker and builds the two-branch message; an interrupt
fails with "interrupted"; the race dying returns `checker.Result()`
— its error unchanged, or the winning probe's address value. -/
def waitSSHStep (opts : SSHTimeoutOpts) (p : PHCState) : Event → StepOut
  | .poll refreshErr addrsResult =>
    match refreshErr with
    | some e => .stop (.failure ("refreshing addresses: " ++ e)) p
    | none =>
      match addrsResult with
      | .error e => .stop (.failure ("getting addresses: " ++ e)) p
      | .ok addrs => .next (p.UpdateAddresses addrs)
  | .globalTimeout drained =>
    match p.Close with
    | none => .stop .panicked p
    | some p2 =>
      .stop (.failure (timeoutMessage opts.Timeout p2.active.isEmpty drained)) p2
  | .interrupted => .stop (.failure "interrupted") p
  | .tryDead result =>
    match result with
    | .error e => .stop (.failure (goErrString e)) p
    | .ok a => .stop (.success a.Value) p

/-- Result of running the `waitSSH` loop over a finite event schedule:
either the loop is still waiting (schedule exhausted) or it stopped
with a terminal outcome. -/
inductive RunOut where
  | running (p : PHCState)
  | stopped (o : Outcome) (p : PHCState)
deriving DecidableEq

/-- Runs the `waitSSH` loop over an event schedule.  Events after a
terminal step are discarded: once a branch returns, the loop is gone
and nothing further is processed. -/
def waitSSHRun (opts : SSHTimeoutOpts) (p : PHCState) : List Event → RunOut
  | [] => .running p
  | e :: es =>
    match waitSSHStep opts p e with
    | .next p2 => waitSSHRun opts p2 es
    | .stop o p2 => .stopped o p2

/-- Embeds the checker state `waitSSH` (bootstrap.go) starts from: an
open `parallel.Try`, an empty `active` map, the caller's retry delay
and check script, and the initial "Waiting for address" progress
line. -/
def initState (opts : SSHTimeoutOpts) (checkHostScript : String) : PHCState :=
  { tryClosed := false
    active := []
    checkDelay := opts.RetryDelay
    checkHostScript := checkHostScript
    started := []
    stderr := ["Waiting for address\n"] }

/-- Modelled from the spec: the external collaborators `Bootstrap`
(bootstrap.go) consults before and during phase 1, with the outcome of
each external call recorded as data: the preferred series, the result
of filtering the available tools for it, the package-level default SSH
client (`none` models a nil `ssh.DefaultClient`), the result of
building the bootstrap machine config, and the result of
`env.StartInstance` — an instance id and architecture, or an error. -/
structure BootstrapEnv where
  preferredSeries : String
  matchTools : Except String Unit
  defaultClient : Option SSHClient
  newMachineConfig : Except String Unit
  startInstance : Except String (String × String)

/-- Observable result of `Bootstrap` phase 1: the returned
(architecture, series) or error, the progress text written to the
context's stderr, and how many times `env.StartInstance` was
invoked. -/
structure BootstrapOut where
  result : Except String (String × String)
  stderrWrites : List String
  instancesStarted : Nat

/-- Embeds the phase-1 body of `Bootstrap` (bootstrap.go) up to the
returned metadata (the finalize closure only packages
`FinishBootstrap`, which is embedded separately): filter tools, check
the default SSH client for nil, build the machine config, write
"Launching instance", start the instance, write its id, and return the
architecture and series. -/
def Bootstrap (env : BootstrapEnv) : BootstrapOut :=
  match env.matchTools with
  | .error e => { result := .error e, stderrWrites := [], instancesStarted := 0 }
  | .ok _ =>
    match env.defaultClient with
    | none =>
      { result := .error "no SSH client available", stderrWrites := [], instancesStarted := 0 }
    | some _ =>
      match env.newMachineConfig with
      | .error e => { result := .error e, stderrWrites := [], instancesStarted := 0 }
      | .ok _ =>
        match env.startInstance with
        | .error e =>
          { result := .error ("cannot start bootstrap instance: " ++ e)
            stderrWrites := ["Launching instance\n"]
            instancesStarted := 1 }
        | .ok (instId, arch) =>
          { result := .ok (arch, env.preferredSeries)
            stderrWrites := ["Launching instance\n", sprintf " - %s\n" [instId]]
            instancesStarted := 1 }

/-- The keys of the coordinator's `active` map, in insertion order. -/
def PHCState.activeKeys (p : PHCState) : List Address := p.active.map Prod.fst

/-- The invariant maintained by the `waitSSH` loop while it is running:
the keys of `active` are exactly the addresses of the probes ever
started (keys are only inserted, never removed), and no tracked
cancellation signal has been closed yet. -/
def PHCInv (p : PHCState) : Prop :=
  p.activeKeys = p.started ∧ ∀ e ∈ p.active, e.2 = 0

/-- Number of occurrences of an address in a list. -/
def occCount (a : Address) : List Address → Nat
  | [] => 0
  | b :: rest => (if b = a then 1 else 0) + occCount a rest

/-- Example address used by witnesses. -/
def addrEx : Address := ⟨"10.0.0.1", AddressScope.publicScope⟩

/-- Second example address (different value and scope). -/
def addrEx2 : Address := ⟨"10.0.0.2", AddressScope.privateScope⟩

/-- Example timeout options used by witnesses. -/
def optsEx : SSHTimeoutOpts := ⟨600, 5, 10⟩

/-- Example client for which exactly the first example address passes
verification. -/
def clientOkEx : SSHClient :=
  ⟨fun userHost _ _ =>
    if userHost = "ubuntu@10.0.0.1" then ⟨"", none⟩
    else ⟨"", some "connection refused"⟩⟩

/-- Example client whose command fails with combined output present. -/
def clientErrEx : SSHClient := ⟨fun _ _ _ => ⟨"  bad output\n", some "exit status 1"⟩⟩

/-- Example client whose command fails with no combined output. -/
def clientRawErrEx : SSHClient := ⟨fun _ _ _ => ⟨"", some "dial tcp: timeout"⟩⟩

/-- Coordinator state of a run that has admitted one address. -/
def phcOneEx : PHCState := (initState optsEx "script").UpdateAddresses [addrEx]

/-- Coordinator state of a run that has admitted two addresses. -/
def phcTwoEx : PHCState := (initState optsEx "script").UpdateAddresses [addrEx2, addrEx]

/-- Example bootstrap environment with a nil default SSH client. -/
def bootstrapEnvEx : BootstrapEnv :=
  { preferredSeries := "trusty"
    matchTools := .ok ()
    defaultClient := none
    newMachineConfig := .ok ()
    startInstance := .ok ("i-bootstrap", "amd64") }

lemma string_data_append (s t : String) : (s ++ t).data = s.data ++ t.data := by
  obtain ⟨a⟩ := s
  obtain ⟨b⟩ := t
  rfl

lemma string_append_assoc (a b c : String) : a ++ b ++ c = a ++ (b ++ c) := by
  obtain ⟨x⟩ := a
  obtain ⟨y⟩ := b
  obtain ⟨z⟩ := c
  show String.mk (x ++ y ++ z) = String.mk (x ++ (y ++ z))
  rw [List.append_assoc]

lemma string_append_empty (s : String) : s ++ "" = s := by
  obtain ⟨l⟩ := s
  show String.mk (l ++ []) = String.mk l
  rw [List.append_nil]

lemma formatVAux_nil_args : ∀ (s : List Char), formatVAux s [] = s
  | [] => rfl
  | [_] => rfl
  | c :: c2 :: rest => by
    have ih := formatVAux_nil_args (c2 :: rest)
    simp only [formatVAux]
    split
    · rw [ih]
    · rw [ih]

lemma formatVAux_no_pct (t : List Char) (args : List String) :
    ∀ (s : List Char), (∀ c ∈ s, c ≠ '%') →
      formatVAux (s ++ t) args = s ++ formatVAux t args
  | [], _ => rfl
  | c :: s, h => by
    have hc : c ≠ '%' := h c (List.mem_cons_self c s)
    have ih := formatVAux_no_pct t args s fun d hd => h d (List.mem_cons_of_mem c hd)
    cases hst : s ++ t with
    | nil =>
      rcases List.append_eq_nil.mp hst with ⟨hs, ht⟩
      subst hs
      subst ht
      rfl
    | cons c2 rest =>
      have hstep : formatVAux (c :: (s ++ t)) args = c :: formatVAux (s ++ t) args := by
        rw [hst]
        simp only [formatVAux]
        rw [if_neg]
        rintro ⟨hceq, -⟩
        exact hc hceq
      calc formatVAux ((c :: s) ++ t) args
          = c :: formatVAux (s ++ t) args := hstep
        _ = c :: (s ++ formatVAux t args) := by rw [ih]
        _ = (c :: s) ++ formatVAux t args := rfl

lemma formatVAux_verb (c2 : Char) (hverb : c2 = 'v' ∨ c2 = 's')
    (rest : List Char) (a : String) (args : List String) :
    formatVAux ('%' :: c2 :: rest) (a :: args) = a.data ++ formatVAux rest args := by
  rcases hverb with h | h <;> subst h <;> rfl

lemma sprintf_one_verb (verb : Char) (hverb : verb = 'v' ∨ verb = 's')
    (pre post a : String) (hpre : ∀ c ∈ pre.data, c ≠ '%') :
    sprintf (pre ++ String.mk ['%', verb] ++ post) [a] = pre ++ a ++ post := by
  have hdata : (pre ++ String.mk ['%', verb] ++ post).data
      = pre.data ++ ('%' :: verb :: post.data) := by
    rw [string_data_append, string_data_append]
    rw [List.append_assoc]
    rfl
  unfold sprintf
  rw [hdata, formatVAux_no_pct _ _ _ hpre, formatVAux_verb verb hverb post.data a [],
    formatVAux_nil_args]
  obtain ⟨pd⟩ := pre
  obtain ⟨ad⟩ := a
  obtain ⟨td⟩ := post
  show String.mk (pd ++ (ad ++ td)) = String.mk (pd ++ ad ++ td)
  rw [List.append_assoc]

lemma sprintf_two_verbs (v1 v2 : Char)
    (h1 : v1 = 'v' ∨ v1 = 's') (h2 : v2 = 'v' ∨ v2 = 's')
    (pre mid post a b : String)
    (hpre : ∀ c ∈ pre.data, c ≠ '%') (hmid : ∀ c ∈ mid.data, c ≠ '%') :
    sprintf (pre ++ String.mk ['%', v1] ++ mid ++ String.mk ['%', v2] ++ post) [a, b]
      = pre ++ a ++ mid ++ b ++ post := by
  have hdata : (pre ++ String.mk ['%', v1] ++ mid ++ String.mk ['%', v2] ++ post).data
      = pre.data ++ ('%' :: v1 :: (mid.data ++ ('%' :: v2 :: post.data))) := by
    rw [string_data_append, string_data_append, string_data_append, string_data_append]
    simp only [List.append_assoc]
    rfl
  unfold sprintf
  rw [hdata, formatVAux_no_pct _ _ _ hpre, formatVAux_verb v1 h1 _ a [b],
    formatVAux_no_pct _ _ _ hmid, formatVAux_verb v2 h2 post.data b [],
    formatVAux_nil_args]
  obtain ⟨pd⟩ := pre
  obtain ⟨md⟩ := mid
  obtain ⟨td⟩ := post
  obtain ⟨ad⟩ := a
  obtain ⟨bd⟩ := b
  show String.mk (pd ++ (ad ++ (md ++ (bd ++ td))))
      = String.mk (pd ++ ad ++ md ++ bd ++ td)
  simp only [List.append_assoc]

lemma hostCheckerLoop_failEvents (hc : HostChecker) :
    ∀ (fs : List String) (le : Option String),
      hostCheckerLoop hc le (failEvents fs)
        = (.outOfEvents (lastAttemptError le fs), failTrace hc fs)
  | [], _ => rfl
  | m :: rest, le => by
    have ih := hostCheckerLoop_failEvents hc rest (some m)
    simp only [failEvents] at ih ⊢
    simp only [List.map_cons, hostCheckerLoop, ih, lastAttemptError, failTrace]

lemma hostCheckerLoop_fail_append (hc : HostChecker) :
    ∀ (fs : List String) (le : Option String) (evs : List ProbeEvent),
      (hostCheckerLoop hc le (failEvents fs ++ evs)).1
        = (hostCheckerLoop hc (lastAttemptError le fs) evs).1
  | [], _, _ => rfl
  | m :: rest, le, evs => by
    have ih := hostCheckerLoop_fail_append hc rest (some m) evs
    simp only [failEvents] at ih ⊢
    simp only [List.map_cons, List.cons_append, hostCheckerLoop, lastAttemptError,
      List.append_eq, ih]

lemma loop_const_finished_nil (hc : HostChecker) :
    ∀ (sched : List ProbeEvent) (v le : Option String),
      (∀ ev ∈ sched, ev = ProbeEvent.attemptResult v) →
      (hostCheckerLoop hc le sched).1 = LoopResult.finished none →
      v = none
  | [], _, _, _, hfin => LoopResult.noConfusion hfin
  | e :: rest, v, le, hall, hfin => by
    have he := hall e (List.mem_cons_self e rest)
    subst he
    cases v with
    | none => rfl
    | some m =>
      simp only [hostCheckerLoop] at hfin
      exact loop_const_finished_nil hc rest (some m) (some m)
        (fun ev hev => hall ev (List.mem_cons_of_mem _ hev)) hfin

lemma keys_map_close (l : List (Address × Nat)) :
    (l.map fun e => (e.1, e.2 + 1)).map Prod.fst = l.map Prod.fst := by
  induction l with
  | nil => rfl
  | cons e rest ih => simp [ih]

lemma close_of_open (p : PHCState) (h : ∀ e ∈ p.active, e.2 = 0) :
    p.Close = some
      { p with tryClosed := true, active := p.active.map fun e => (e.1, e.2 + 1) } := by
  unfold PHCState.Close
  rw [if_neg]
  simp only [List.any_eq_true, not_exists]
  rintro e ⟨he, hne⟩
  simp [h e he] at hne

lemma admitOne_mem (q : PHCState) (a : Address) (h : a ∈ q.activeKeys) :
    admitOne q a = q := by
  unfold admitOne
  exact if_pos h

lemma admitOne_not_mem (q : PHCState) (a : Address) (h : a ∉ q.activeKeys) :
    admitOne q a = { q with
      stderr := q.stderr ++ [sprintf "Attempting to connect to %s:22\n" [a.Value]]
      active := q.active ++ [(a, 0)]
      started := q.started ++ [a] } := by
  unfold admitOne
  exact if_neg h

lemma admitOne_keys (q : PHCState) (a : Address) :
    ∃ new, (admitOne q a).activeKeys = q.activeKeys ++ new := by
  by_cases h : a ∈ q.activeKeys
  · exact ⟨[], by rw [admitOne_mem q a h, List.append_nil]⟩
  · refine ⟨[a], ?_⟩
    rw [admitOne_not_mem q a h]
    simp [PHCState.activeKeys]

lemma admitOne_inv (q : PHCState) (a : Address) (h : PHCInv q) : PHCInv (admitOne q a) := by
  obtain ⟨hk, hz⟩ := h
  by_cases hm : a ∈ q.activeKeys
  · rw [admitOne_mem q a hm]
    exact ⟨hk, hz⟩
  · rw [admitOne_not_mem q a hm]
    constructor
    · simp only [PHCState.activeKeys] at hk ⊢
      simp [List.map_append, hk]
    · intro e he
      rcases List.mem_append.mp he with h1 | h1
      · exact hz e h1
      · simp only [List.mem_singleton] at h1
        rw [h1]

lemma update_keys : ∀ (addrs : List Address) (p : PHCState),
    ∃ new, (p.UpdateAddresses addrs).activeKeys = p.activeKeys ++ new
  | [], _ => ⟨[], by simp [PHCState.UpdateAddresses]⟩
  | a :: rest, p => by
    obtain ⟨n1, h1⟩ := admitOne_keys p a
    obtain ⟨n2, h2⟩ := update_keys rest (admitOne p a)
    refine ⟨n1 ++ n2, ?_⟩
    show ((admitOne p a).UpdateAddresses rest).activeKeys = p.activeKeys ++ (n1 ++ n2)
    rw [h2, h1, List.append_assoc]

lemma update_inv : ∀ (addrs : List Address) (p : PHCState),
    PHCInv p → PHCInv (p.UpdateAddresses addrs)
  | [], _, h => h
  | a :: rest, p, h =>
    update_inv rest (admitOne p a) (admitOne_inv p a h)

lemma update_mem_keys : ∀ (addrs : List Address) (p : PHCState) (a : Address),
    a ∈ addrs → a ∈ (p.UpdateAddresses addrs).activeKeys
  | [], _, a, h => absurd h (List.not_mem_nil a)
  | b :: rest, p, a, h => by
    show a ∈ ((admitOne p b).UpdateAddresses rest).activeKeys
    rcases List.mem_cons.mp h with h1 | h1
    · subst h1
      have hmem : a ∈ (admitOne p a).activeKeys := by
        by_cases hm : a ∈ p.activeKeys
        · rw [admitOne_mem p a hm]
          exact hm
        · rw [admitOne_not_mem p a hm]
          simp [PHCState.activeKeys]
      obtain ⟨new, hnew⟩ := update_keys rest (admitOne p a)
      rw [hnew]
      exact List.mem_append_left _ hmem
    · exact update_mem_keys rest (admitOne p b) a h1

lemma update_no_new : ∀ (addrs : List Address) (q : PHCState),
    (∀ a ∈ addrs, a ∈ q.activeKeys) → q.UpdateAddresses addrs = q
  | [], _, _ => rfl
  | b :: rest, q, h => by
    show (admitOne q b).UpdateAddresses rest = q
    rw [admitOne_mem q b (h b (List.mem_cons_self b rest))]
    exact update_no_new rest q fun a ha => h a (List.mem_cons_of_mem b ha)

lemma occCount_append (a : Address) (l m : List Address) :
    occCount a (l ++ m) = occCount a l + occCount a m := by
  induction l with
  | nil => simp [occCount]
  | cons b rest ih => simp [occCount, ih, Nat.add_assoc]

lemma step_next_keys (opts : SSHTimeoutOpts) (p : PHCState) (ev : Event) (p2 : PHCState)
    (h : waitSSHStep opts p ev = .next p2) :
    ∃ new, p2.activeKeys = p.activeKeys ++ new := by
  cases ev with
  | poll re ar =>
    cases re with
    | some e => simp [waitSSHStep] at h
    | none =>
      cases ar with
      | error e => simp [waitSSHStep] at h
      | ok addrs =>
        simp only [waitSSHStep, StepOut.next.injEq] at h
        subst h
        exact update_keys addrs p
  | globalTimeout d =>
    cases hc : p.Close <;> simp [waitSSHStep, hc] at h
  | interrupted => simp [waitSSHStep] at h
  | tryDead r => cases r <;> simp [waitSSHStep] at h

lemma step_stop_keys (opts : SSHTimeoutOpts) (p : PHCState) (ev : Event) (o : Outcome)
    (p2 : PHCState) (h : waitSSHStep opts p ev = .stop o p2) :
    p2.activeKeys = p.activeKeys := by
  cases ev with
  | poll re ar =>
    cases re with
    | some e =>
      simp only [waitSSHStep, StepOut.stop.injEq] at h
      rw [h.2]
    | none =>
      cases ar with
      | error e =>
        simp only [waitSSHStep, StepOut.stop.injEq] at h
        rw [h.2]
      | ok addrs => simp [waitSSHStep] at h
  | globalTimeout d =>
    cases hc : p.Close with
    | none =>
      simp only [waitSSHStep, hc, StepOut.stop.injEq] at h
      rw [h.2]
    | some q =>
      simp only [waitSSHStep, hc, StepOut.stop.injEq] at h
      rw [← h.2]
      unfold PHCState.Close at hc
      by_cases hany : p.active.any (fun e => e.2 != 0)
      · rw [if_pos hany] at hc
        exact Option.noConfusion hc
      · rw [if_neg hany] at hc
        have hq := Option.some.inj hc
        rw [← hq]
        simp only [PHCState.activeKeys]
        exact keys_map_close p.active
  | interrupted =>
    simp only [waitSSHStep, StepOut.stop.injEq] at h
    rw [h.2]
  | tryDead r =>
    cases r with
    | error e =>
      simp only [waitSSHStep, StepOut.stop.injEq] at h
      rw [h.2]
    | ok a =>
      simp only [waitSSHStep, StepOut.stop.injEq] at h
      rw [h.2]

lemma step_next_inv (opts : SSHTimeoutOpts) (p : PHCState) (ev : Event) (p2 : PHCState)
    (h : waitSSHStep opts p ev = .next p2) (hinv : PHCInv p) : PHCInv p2 := by
  cases ev with
  | poll re ar =>
    cases re with
    | some e => simp [waitSSHStep] at h
    | none =>
      cases ar with
      | error e => simp [waitSSHStep] at h
      | ok addrs =>
        simp only [waitSSHStep, StepOut.next.injEq] at h
        subst h
        exact update_inv addrs p hinv
  | globalTimeout d =>
    cases hc : p.Close <;> simp [waitSSHStep, hc] at h
  | interrupted => simp [waitSSHStep] at h
  | tryDead r => cases r <;> simp [waitSSHStep] at h

lemma init_inv (opts : SSHTimeoutOpts) (script : String) :
    PHCInv (initState opts script) :=
  ⟨rfl, by simp [initState]⟩

lemma run_running_inv (opts : SSHTimeoutOpts) :
    ∀ (evs : List Event) (q p : PHCState),
      PHCInv q → waitSSHRun opts q evs = .running p → PHCInv p
  | [], q, p, hq, h => by
    simp only [waitSSHRun, RunOut.running.injEq] at h
    rw [← h]
    exact hq
  | e :: es, q, p, hq, h => by
    simp only [waitSSHRun] at h
    cases hstep : waitSSHStep opts q e with
    | next q2 =>
      rw [hstep] at h
      exact run_running_inv opts es q2 p (step_next_inv opts q e q2 hstep hq) h
    | stop o q2 =>
      rw [hstep] at h
      exact RunOut.noConfusion h

lemma run_append (opts : SSHTimeoutOpts) :
    ∀ (evs : List Event) (q p : PHCState) (more : List Event),
      waitSSHRun opts q evs = .running p →
      waitSSHRun opts q (evs ++ more) = waitSSHRun opts p more
  | [], q, p, more, h => by
    simp only [waitSSHRun, RunOut.running.injEq] at h
    rw [List.nil_append, h]
  | e :: es, q, p, more, h => by
    simp only [waitSSHRun] at h
    simp only [List.cons_append, waitSSHRun]
    cases hstep : waitSSHStep opts q e with
    | next q2 =>
      rw [hstep] at h
      exact run_append opts es q2 p more h
    | stop o q2 =>
      rw [hstep] at h
      exact RunOut.noConfusion h

lemma string_length_pos_of_ne (s : String) (h : s ≠ "") : 0 < s.length := by
  obtain ⟨l⟩ := s
  cases l with
  | nil => exact absurd rfl h
  | cons c cs => simp [String.length]

lemma notice_eq (v : String) :
    sprintf "Attempting to connect to %s:22\n" [v]
      = "Attempting to connect to " ++ v ++ ":22\n" := by
  have hfmt : ("Attempting to connect to %s:22\n" : String)
      = "Attempting to connect to " ++ String.mk ['%', 's'] ++ ":22\n" := by decide
  rw [hfmt, sprintf_one_verb 's' (Or.inr rfl) _ _ _ (by decide)]

lemma timeoutMessage_eq (T : Nat) (b : Bool) (lastErr : Option GoError) :
    timeoutMessage T b lastErr
      = "waited for " ++ durationString T ++
          (if b then " without getting any addresses" else " without being able to connect") ++
          drainSuffix lastErr := by
  have hv : ('v' : Char) = 'v' ∨ ('v' : Char) = 's' := Or.inl rfl
  have hpre : ∀ c ∈ ("waited for " : String).data, c ≠ '%' := by decide
  have hfmt1 : ("waited for %v without getting any addresses" : String)
      = "waited for " ++ String.mk ['%', 'v'] ++ " without getting any addresses" := by
    decide
  have hfmt2 : ("waited for %v without being able to connect" : String)
      = "waited for " ++ String.mk ['%', 'v'] ++ " without being able to connect" := by
    decide
  have hfmt3 : ("waited for %v without getting any addresses: %v" : String)
      = "waited for " ++ String.mk ['%', 'v'] ++ " without getting any addresses: "
          ++ String.mk ['%', 'v'] ++ "" := by
    decide
  have hfmt4 : ("waited for %v without being able to connect: %v" : String)
      = "waited for " ++ String.mk ['%', 'v'] ++ " without being able to connect: "
          ++ String.mk ['%', 'v'] ++ "" := by
    decide
  have hsplit1 : (" without getting any addresses: " : String)
      = " without getting any addresses" ++ ": " := by decide
  have hsplit2 : (" without being able to connect: " : String)
      = " without being able to connect" ++ ": " := by decide
  cases b with
  | true =>
    cases lastErr with
    | none =>
      show sprintf "waited for %v without getting any addresses" [durationString T]
          = "waited for " ++ durationString T ++ " without getting any addresses" ++ ""
      rw [string_append_empty, hfmt1, sprintf_one_verb 'v' hv _ _ _ hpre]
    | some e =>
      by_cases he : e = GoError.errStopped
      · subst he
        show sprintf "waited for %v without getting any addresses" [durationString T]
            = "waited for " ++ durationString T ++ " without getting any addresses" ++ ""
        rw [string_append_empty, hfmt1, sprintf_one_verb 'v' hv _ _ _ hpre]
      · have hred : timeoutMessage T true (some e)
            = sprintf "waited for %v without getting any addresses: %v"
                [durationString T, goErrString e] := by
          simp only [timeoutMessage]
          rw [if_neg he]
          rfl
        rw [hred]
        show _ = "waited for " ++ durationString T ++ " without getting any addresses"
            ++ (if e = GoError.errStopped then "" else ": " ++ goErrString e)
        rw [if_neg he, hfmt3,
          sprintf_two_verbs 'v' 'v' hv hv _ _ _ _ _ hpre (by decide),
          string_append_empty, hsplit1]
        simp only [string_append_assoc]
  | false =>
    cases lastErr with
    | none =>
      show sprintf "waited for %v without being able to connect" [durationString T]
          = "waited for " ++ durationString T ++ " without being able to connect" ++ ""
      rw [string_append_empty, hfmt2, sprintf_one_verb 'v' hv _ _ _ hpre]
    | some e =>
      by_cases he : e = GoError.errStopped
      · subst he
        show sprintf "waited for %v without being able to connect" [durationString T]
            = "waited for " ++ durationString T ++ " without being able to connect" ++ ""
        rw [string_append_empty, hfmt2, sprintf_one_verb 'v' hv _ _ _ hpre]
      · have hred : timeoutMessage T false (some e)
            = sprintf "waited for %v without being able to connect: %v"
                [durationString T, goErrString e] := by
          simp only [timeoutMessage]
          rw [if_neg he]
          rfl
        rw [hred]
        show _ = "waited for " ++ durationString T ++ " without being able to connect"
            ++ (if e = GoError.errStopped then "" else ": " ++ goErrString e)
        rw [if_neg he, hfmt4,
          sprintf_two_verbs 'v' 'v' hv hv _ _ _ _ _ hpre (by decide),
          string_append_empty, hsplit2]
        simp only [string_append_assoc]

/-- Claim C4: `hostChecker.loop` retries failed verification attempts
indefinitely, sleeping `checkDelay` between attempts (first two
conjuncts: on any schedule of failures, however long, the loop is still
running with the last failure recorded, and its trace interleaves one
attempt with one `checkDelay` sleep per failure); it terminates only on
cancellation — via the per-address closed signal or the shared dying
signal, returning immediately with the last observed attempt error,
`none` when cancelled before any attempt completed (conjuncts three and
four, with `fs = []` covering that case) — or on a successful attempt,
returning a nil error (last conjunct). -/
theorem hostChecker_loop_spec (hc : HostChecker) (fs : List String) (rest : List ProbeEvent) :
    ((hostCheckerLoop hc none (failEvents fs)).1
        = .outOfEvents (lastAttemptError none fs))
  ∧ ((hostCheckerLoop hc none (failEvents fs)).2 = failTrace hc fs)
  ∧ ((hostCheckerLoop hc none (failEvents fs ++ ProbeEvent.closedSignal :: rest)).1
        = .finished (lastAttemptError none fs))
  ∧ ((hostCheckerLoop hc none (failEvents fs ++ ProbeEvent.dyingSignal :: rest)).1
        = .finished (lastAttemptError none fs))
  ∧ ((hostCheckerLoop hc none (failEvents fs ++ ProbeEvent.attemptResult none :: rest)).1
        = .finished none) := by
  refine ⟨?_, ?_, ?_, ?_, ?_⟩
  · rw [hostCheckerLoop_failEvents hc fs none]
  · rw [hostCheckerLoop_failEvents hc fs none]
  · rw [hostCheckerLoop_fail_append hc fs none]
    rfl
  · rw [hostCheckerLoop_fail_append hc fs none]
    rfl
  · rw [hostCheckerLoop_fail_append hc fs none]
    rfl

/-- Claim C3: whenever the set of admitted addresses is non-empty and
exactly one admitted address passes verification (the script succeeds
for `w` and for no other admitted address), a win reported by the race
makes `waitSSH` return `w`'s string value.  The winning probe `a` is
one of the admitted addresses; its event schedule carries only its own
deterministic `connectSSH` results (during the loop neither
cancellation signal has fired), and its loop returned a nil error.  No
hypothesis constrains the order in which addresses were admitted or
their scopes, so the result is independent of both. -/
theorem waitSSH_unique_winner (opts : SSHTimeoutOpts) (script : String) (client : SSHClient)
    (evs : List Event) (p : PHCState) (w a : Address) (sched : List ProbeEvent)
    (hreach : waitSSHRun opts (initState opts script) evs = .running p)
    (hw : w ∈ p.started)
    (hwv : connectSSH client w.Value script = none)
    (huniq : ∀ b ∈ p.started, connectSSH client b.Value script = none → b = w)
    (ha : a ∈ p.started)
    (hsched : ∀ ev ∈ sched, ev = ProbeEvent.attemptResult (connectSSH client a.Value script))
    (hfin : (hostCheckerLoop ⟨a, p.checkDelay, p.checkHostScript⟩ none sched).1
        = LoopResult.finished none) :
    waitSSHStep opts p (.tryDead (.ok a)) = .stop (.success w.Value) p := by
  have hav : connectSSH client a.Value script = none :=
    loop_const_finished_nil ⟨a, p.checkDelay, p.checkHostScript⟩ sched _ none hsched hfin
  have haw : a = w := huniq a ha hav
  subst haw
  rfl

/-- Claim C3 witness: a run admits two addresses, of which only the
first example address verifies under the example client; the race
reports it and `waitSSH` returns its value. -/
theorem waitSSH_unique_winner_witness :
    waitSSHStep optsEx phcTwoEx (.tryDead (.ok addrEx)) = .stop (.success addrEx.Value) phcTwoEx :=
  waitSSH_unique_winner optsEx "script" clientOkEx
    [Event.poll none (.ok [addrEx2, addrEx])] phcTwoEx addrEx addrEx
    [ProbeEvent.attemptResult none]
    rfl (by decide) (by decide) (by decide) (by decide) (by decide) rfl

/-- Claim C1 counterexample: the claim asserts that for every
coordinator state a second `Close` after a first is a no-op on the
already-closed per-address signals and produces no error.  On a state
that has admitted one address the first `Close` succeeds, and the
second `Close` executes `close(ch)` on the already-closed signal —
a Go panic (modelled as `none`), not a no-op. -/
theorem close_twice_panics_cex :
    ((phcOneEx.Close).bind PHCState.Close = none) ∧ (phcOneEx.Close).isSome = true := by
  decide

/-- Claim C1 (amended): a single call to `parallelHostChecker.Close`
returns no error and closes every tracked per-address signal exactly
once, leaving the key set unchanged; `Close` is however not idempotent
— after a first close, a second call is a no-op only when no address is
tracked, and with at least one tracked address it re-closes an
already-closed signal, which panics. -/
theorem close_single_call_spec (p : PHCState) (h : ∀ e ∈ p.active, e.2 = 0) :
    ∃ p2, p.Close = some p2
      ∧ p2.activeKeys = p.activeKeys
      ∧ (∀ e ∈ p2.active, e.2 = 1)
      ∧ (p.active = [] → p2.Close = some p2)
      ∧ (p.active ≠ [] → p2.Close = none) := by
  refine ⟨_, close_of_open p h, ?_, ?_, ?_, ?_⟩
  · simp only [PHCState.activeKeys]
    exact keys_map_close p.active
  · intro e he
    simp only [List.mem_map] at he
    obtain ⟨e0, he0, heq⟩ := he
    rw [← heq]
    simp [h e0 he0]
  · intro hemp
    simp [PHCState.Close, hemp]
  · intro hne
    cases hact : p.active with
    | nil => exact absurd hact hne
    | cons e0 rest =>
      simp [PHCState.Close, hact]

/-- Claim C1 amended-claim witness: instantiation at the state that
admitted one address, whose only signal is still open. -/
theorem close_single_call_spec_witness :
    ∃ p2, phcOneEx.Close = some p2
      ∧ p2.activeKeys = phcOneEx.activeKeys
      ∧ (∀ e ∈ p2.active, e.2 = 1)
      ∧ (phcOneEx.active = [] → p2.Close = some p2)
      ∧ (phcOneEx.active ≠ [] → p2.Close = none) :=
  close_single_call_spec phcOneEx (by decide)

/-- Claim C2: when the global deadline fires in a running `waitSSH`
loop, the returned error message is "waited for Δ without getting any
addresses" when no address was ever admitted and "waited for Δ without
being able to connect" when at least one was, and the drained error
text is appended (as ": text") precisely when the drained error is
present (`some`) and is not the `parallel.ErrStopped` marker. -/
theorem waitSSH_timeout_message (opts : SSHTimeoutOpts) (script : String)
    (evs : List Event) (p : PHCState) (drained : Option GoError)
    (hreach : waitSSHRun opts (initState opts script) evs = .running p) :
    ∃ p2, waitSSHStep opts p (.globalTimeout drained)
      = .stop (.failure
          ("waited for " ++ durationString opts.Timeout ++
            (if p.started = [] then " without getting any addresses"
             else " without being able to connect") ++
            drainSuffix drained)) p2 := by
  obtain ⟨hkeys, hzero⟩ :=
    run_running_inv opts evs (initState opts script) p (init_inv opts script) hreach
  have hstep : waitSSHStep opts p (.globalTimeout drained)
      = .stop (.failure
          (timeoutMessage opts.Timeout
            (p.active.map fun e => (e.1, e.2 + 1)).isEmpty drained))
          { p with tryClosed := true, active := p.active.map fun e => (e.1, e.2 + 1) } := by
    show (match p.Close with
      | none => StepOut.stop Outcome.panicked p
      | some p2 =>
        StepOut.stop (.failure (timeoutMessage opts.Timeout p2.active.isEmpty drained)) p2) = _
    rw [close_of_open p hzero]
  have hb : (p.active.map fun e => (e.1, e.2 + 1)).isEmpty = decide (p.started = []) := by
    by_cases hs : p.started = []
    · have hemp : p.active = [] := by
        rw [← hkeys] at hs
        exact List.map_eq_nil.mp hs
      simp [hemp, hs]
    · have hne : p.active ≠ [] := by
        intro hemp
        apply hs
        rw [← hkeys]
        simp [PHCState.activeKeys, hemp]
      cases hact : p.active with
      | nil => exact absurd hact hne
      | cons e0 r => simp [hs]
  have hmsg : timeoutMessage opts.Timeout
      (p.active.map fun e => (e.1, e.2 + 1)).isEmpty drained
      = "waited for " ++ durationString opts.Timeout ++
          (if p.started = [] then " without getting any addresses"
           else " without being able to connect") ++
          drainSuffix drained := by
    rw [hb, timeoutMessage_eq]
    by_cases hs : p.started = [] <;> simp [hs]
  refine ⟨{ p with tryClosed := true, active := p.active.map fun e => (e.1, e.2 + 1) }, ?_⟩
  rw [hstep, hmsg]

/-- Claim C2 witness: the deadline fires on the freshly started loop
(no address ever admitted, nothing drained). -/
theorem waitSSH_timeout_message_witness :
    ∃ p2, waitSSHStep optsEx (initState optsEx "script") (.globalTimeout none)
      = .stop (.failure
          ("waited for " ++ durationString optsEx.Timeout ++
            (if (initState optsEx "script").started = [] then " without getting any addresses"
             else " without being able to connect") ++
            drainSuffix (none : Option GoError))) p2 :=
  waitSSH_timeout_message optsEx "script" [] (initState optsEx "script") none rfl

/-- Claim C8: in the polling branch of a running `waitSSH` loop, an
error from `Refresh()` ends the loop at once with the
"refreshing addresses:" prefix, and an error from `Addresses()` ends it
with the "getting addresses:" prefix; in both cases every event that
might have followed is discarded — the fetch is not retried. -/
theorem waitSSH_fetch_error_fatal (opts : SSHTimeoutOpts) (script : String)
    (evs rest : List Event) (p : PHCState) (e : String)
    (ar : Except String (List Address))
    (hreach : waitSSHRun opts (initState opts script) evs = .running p) :
    (waitSSHRun opts (initState opts script) (evs ++ Event.poll (some e) ar :: rest)
        = .stopped (.failure ("refreshing addresses: " ++ e)) p)
  ∧ (waitSSHRun opts (initState opts script) (evs ++ Event.poll none (.error e) :: rest)
        = .stopped (.failure ("getting addresses: " ++ e)) p) := by
  constructor
  · rw [run_append opts evs (initState opts script) p _ hreach]
    rfl
  · rw [run_append opts evs (initState opts script) p _ hreach]
    rfl

/-- Claim C8 witness: after one successful poll, a refresh failure and
an address-fetch failure each end the loop with the right prefix even
with further events pending. -/
theorem waitSSH_fetch_error_fatal_witness :
    (waitSSHRun optsEx (initState optsEx "script")
        ([Event.poll none (.ok [addrEx])] ++ Event.poll (some "boom") (.ok []) :: [.interrupted])
        = .stopped (.failure ("refreshing addresses: " ++ "boom")) phcOneEx)
  ∧ (waitSSHRun optsEx (initState optsEx "script")
        ([Event.poll none (.ok [addrEx])] ++ Event.poll none (.error "boom") :: [.interrupted])
        = .stopped (.failure ("getting addresses: " ++ "boom")) phcOneEx) :=
  waitSSH_fetch_error_fatal optsEx "script" [Event.poll none (.ok [addrEx])]
    [.interrupted] phcOneEx "boom" (.ok []) rfl

/-- Claim C9: keys are only ever inserted into the coordinator's
`active` map and never removed — a `next` step only appends keys and a
terminal step (including the deadline's `Close` and any probe success
or failure report) leaves the keys unchanged — so in every state
reachable by a running `waitSSH` loop the emptiness test on `active`
holds exactly when no address was ever admitted during the run. -/
theorem active_insert_only (opts : SSHTimeoutOpts) :
    (∀ (p : PHCState) (ev : Event),
        (∀ p2, waitSSHStep opts p ev = .next p2 →
            ∃ new, p2.activeKeys = p.activeKeys ++ new)
      ∧ (∀ o p2, waitSSHStep opts p ev = .stop o p2 → p2.activeKeys = p.activeKeys))
  ∧ (∀ (script : String) (evs : List Event) (p : PHCState),
        waitSSHRun opts (initState opts script) evs = .running p →
        (p.active = [] ↔ p.started = [])) := by
  constructor
  · intro p ev
    exact ⟨fun p2 h => step_next_keys opts p ev p2 h,
      fun o p2 h => step_stop_keys opts p ev o p2 h⟩
  · intro script evs p hreach
    obtain ⟨hkeys, -⟩ :=
      run_running_inv opts evs (initState opts script) p (init_inv opts script) hreach
    constructor
    · intro hemp
      rw [← hkeys]
      simp [PHCState.activeKeys, hemp]
    · intro hs
      rw [← hkeys] at hs
      exact List.map_eq_nil.mp hs

/-- Claim C9 witness: a poll step from the initial state appends the
admitted address's key, and in the resulting state (one admitted
address) neither side of the emptiness equivalence holds. -/
theorem active_insert_only_witness :
    (∃ new, phcOneEx.activeKeys = (initState optsEx "script").activeKeys ++ new)
  ∧ (phcOneEx.active = [] ↔ phcOneEx.started = []) :=
  ⟨(active_insert_only optsEx).1 (initState optsEx "script")
      (Event.poll none (.ok [addrEx])) |>.1 phcOneEx rfl,
    (active_insert_only optsEx).2 "script" [Event.poll none (.ok [addrEx])] phcOneEx rfl⟩

lemma update_count (a : Address) :
    ∀ (addrs : List Address) (p : PHCState),
      occCount a (p.UpdateAddresses addrs).started
        = occCount a p.started + (if a ∈ addrs ∧ a ∉ p.activeKeys then 1 else 0)
  | [], p => by simp [PHCState.UpdateAddresses]
  | b :: rest, p => by
    have hstep : p.UpdateAddresses (b :: rest) = (admitOne p b).UpdateAddresses rest := rfl
    rw [hstep, update_count a rest (admitOne p b)]
    by_cases hb : b ∈ p.activeKeys
    · rw [admitOne_mem p b hb]
      by_cases hab : a = b
      · subst hab
        simp [hb]
      · simp [List.mem_cons, hab]
    · rw [admitOne_not_mem p b hb]
      simp only [PHCState.activeKeys] at hb
      by_cases hab : a = b
      · subst hab
        simp [occCount_append, occCount, PHCState.activeKeys, List.map_append, hb]
      · have hba : ¬(b = a) := fun hyp => hab hyp.symm
        have hcond : (a ∈ rest ∧ a ∉ List.map Prod.fst p.active ++ List.map Prod.fst [(b, 0)])
            ↔ (a ∈ b :: rest ∧ a ∉ List.map Prod.fst p.active) := by
          simp [List.mem_append, List.mem_cons, hab]
        simp only [occCount_append, occCount, PHCState.activeKeys, hba, if_false,
          List.map_append]
        rw [if_congr hcond rfl rfl]
        simp

/-- Claim C6: admission is idempotent per address.  For every address
list, each listed address not already tracked gets exactly one probe
(the occurrence count of its address among started probes rises by
exactly one, and by zero when it is already tracked or absent); a fresh
single-address admission appends exactly one
"Attempting to connect to <addr>:22" notice and one probe; re-admitting
a tracked address changes nothing at all; and repeating a whole
admission is a no-op. -/
theorem updateAddresses_admission (p : PHCState) (addrs : List Address) (a : Address) :
    (occCount a (p.UpdateAddresses addrs).started
       = occCount a p.started + (if a ∈ addrs ∧ a ∉ p.activeKeys then 1 else 0))
  ∧ (a ∈ p.activeKeys → p.UpdateAddresses [a] = p)
  ∧ (a ∉ p.activeKeys →
      (p.UpdateAddresses [a]).stderr
          = p.stderr ++ ["Attempting to connect to " ++ a.Value ++ ":22\n"]
      ∧ (p.UpdateAddresses [a]).started = p.started ++ [a])
  ∧ (p.UpdateAddresses addrs).UpdateAddresses addrs = p.UpdateAddresses addrs := by
  refine ⟨update_count a addrs p, ?_, ?_, ?_⟩
  · intro h
    show admitOne p a = p
    exact admitOne_mem p a h
  · intro h
    have hrw : p.UpdateAddresses [a] = { p with
        stderr := p.stderr ++ [sprintf "Attempting to connect to %s:22\n" [a.Value]]
        active := p.active ++ [(a, 0)]
        started := p.started ++ [a] } := admitOne_not_mem p a h
    rw [hrw]
    exact ⟨by rw [notice_eq], rfl⟩
  · exact update_no_new addrs (p.UpdateAddresses addrs) fun b hb => update_mem_keys addrs p b hb

/-- Claim C6 witness: admitting the example address into the fresh
coordinator emits exactly its notice and starts exactly its probe. -/
theorem updateAddresses_admission_witness :
    ((initState optsEx "script").UpdateAddresses [addrEx]).stderr
        = (initState optsEx "script").stderr
            ++ ["Attempting to connect to " ++ addrEx.Value ++ ":22\n"]
    ∧ ((initState optsEx "script").UpdateAddresses [addrEx]).started
        = (initState optsEx "script").started ++ [addrEx] :=
  (updateAddresses_admission (initState optsEx "script") [addrEx] addrEx).2.2.1 (by decide)

/-- Claim C5: for every failed `connectSSH` attempt the reported error
is the trimmed combined output when that output is non-empty and the
raw transport error unchanged when it is empty, while a zero-exit run
(nil error from the command) reports no error. -/
theorem connectSSH_error_spec (client : SSHClient) (host checkHostScript : String) :
    ((client.runCommand ("ubuntu@" ++ host) ["/bin/bash"] checkHostScript).err = none →
        connectSSH client host checkHostScript = none)
  ∧ (∀ e,
      (client.runCommand ("ubuntu@" ++ host) ["/bin/bash"] checkHostScript).err = some e →
      (client.runCommand ("ubuntu@" ++ host) ["/bin/bash"] checkHostScript).output ≠ "" →
      connectSSH client host checkHostScript
        = some (trimSpace
            (client.runCommand ("ubuntu@" ++ host) ["/bin/bash"] checkHostScript).output))
  ∧ (∀ e,
      (client.runCommand ("ubuntu@" ++ host) ["/bin/bash"] checkHostScript).err = some e →
      (client.runCommand ("ubuntu@" ++ host) ["/bin/bash"] checkHostScript).output = "" →
      connectSSH client host checkHostScript = some e) := by
  refine ⟨?_, ?_, ?_⟩
  · intro h
    simp [connectSSH, h]
  · intro e he hne
    simp [connectSSH, he, string_length_pos_of_ne _ hne]
  · intro e he h0
    simp [connectSSH, he, h0]

/-- Claim C5 witness: a failing command with non-empty combined output
reports the trimmed output. -/
theorem connectSSH_error_spec_witness :
    connectSSH clientErrEx "10.0.0.9" "script"
      = some (trimSpace
          (clientErrEx.runCommand ("ubuntu@" ++ "10.0.0.9") ["/bin/bash"] "script").output) :=
  (connectSSH_error_spec clientErrEx "10.0.0.9" "script").2.1 "exit status 1" rfl (by decide)

set_option maxRecDepth 8192 in
/-- Claim C7: the nonce-check script built by `FinishBootstrap` embeds
two distinct failure messages (first conjunct: the built text shown
with its two `%s` holes filled); evaluated on the remote machine it
exits 1 with stderr "$noncefile does not exist" when the nonce file is
absent, exits 1 with the different stderr
"$noncefile contents do not match machine nonce" when the contents
differ, the two failure texts are never equal, and a matching nonce
makes it exit 0. -/
theorem checkNonce_script_spec (nonceFilePath machineNonce : String) :
    (checkNonceCommand nonceFilePath machineNonce
       = "\n\tnoncefile=" ++ shQuote nonceFilePath
           ++ "\n\tif [ ! -e \"$noncefile\" ]; then\n\t\techo \"$noncefile does not exist\" >&2\n\t\texit 1\n\tfi\n\tcontent=$(cat $noncefile)\n\tif [ \"$content\" != "
           ++ shQuote machineNonce
           ++ " ]; then\n\t\techo \"$noncefile contents do not match machine nonce\" >&2\n\t\texit 1\n\tfi\n\t")
  ∧ (runCheckNonceScript nonceFilePath machineNonce none
       = { exitCode := 1, stderrLines := [nonceFilePath ++ " does not exist"] })
  ∧ (∀ content, content ≠ machineNonce →
      runCheckNonceScript nonceFilePath machineNonce (some content)
        = { exitCode := 1
            stderrLines := [nonceFilePath ++ " contents do not match machine nonce"] })
  ∧ (nonceFilePath ++ " does not exist"
       ≠ nonceFilePath ++ " contents do not match machine nonce")
  ∧ (runCheckNonceScript nonceFilePath machineNonce (some machineNonce)
       = { exitCode := 0, stderrLines := [] }) := by
  refine ⟨?_, rfl, ?_, ?_, ?_⟩
  · have hs : ('s' : Char) = 'v' ∨ ('s' : Char) = 's' := Or.inr rfl
    have hfmt : checkNonceCommandTemplate
        = "\n\tnoncefile=" ++ String.mk ['%', 's']
            ++ "\n\tif [ ! -e \"$noncefile\" ]; then\n\t\techo \"$noncefile does not exist\" >&2\n\t\texit 1\n\tfi\n\tcontent=$(cat $noncefile)\n\tif [ \"$content\" != "
            ++ String.mk ['%', 's']
            ++ " ]; then\n\t\techo \"$noncefile contents do not match machine nonce\" >&2\n\t\texit 1\n\tfi\n\t" := by
      decide
    show sprintf checkNonceCommandTemplate [shQuote nonceFilePath, shQuote machineNonce] = _
    rw [hfmt, sprintf_two_verbs 's' 's' hs hs _ _ _ _ _ (by decide) (by decide)]
  · intro content hcc
    simp [runCheckNonceScript, hcc]
  · intro h
    have hd := congrArg String.data h
    rw [string_data_append, string_data_append] at hd
    have hca := List.append_cancel_left hd
    exact absurd hca (by decide)
  · simp [runCheckNonceScript]

/-- Claim C7 witness: a mismatched nonce file yields the
contents-do-not-match failure with exit code 1. -/
theorem checkNonce_script_spec_witness :
    runCheckNonceScript "/var/lib/juju/nonce.txt" "user-admin:bootstrap" (some "other")
      = { exitCode := 1
          stderrLines :=
            ["/var/lib/juju/nonce.txt" ++ " contents do not match machine nonce"] } :=
  (checkNonce_script_spec "/var/lib/juju/nonce.txt" "user-admin:bootstrap").2.2.1
    "other" (by decide)

/-- Claim C10: with a nil default SSH client, `Bootstrap` writes no
progress text and starts no instance (the failure has no external side
effects), it fails, and — provided the tools filtering that precedes
the client check succeeded — the error is exactly
"no SSH client available". -/
theorem bootstrap_nil_client_spec (env : BootstrapEnv) (h : env.defaultClient = none) :
    (Bootstrap env).stderrWrites = []
  ∧ (Bootstrap env).instancesStarted = 0
  ∧ (∃ e, (Bootstrap env).result = .error e)
  ∧ (env.matchTools = .ok () → (Bootstrap env).result = .error "no SSH client available") := by
  cases hm : env.matchTools with
  | error e =>
    refine ⟨?_, ?_, ⟨e, ?_⟩, ?_⟩
    · simp [Bootstrap, hm]
    · simp [Bootstrap, hm]
    · simp [Bootstrap, hm]
    · intro h2
      exact Except.noConfusion h2
  | ok u =>
    cases u
    refine ⟨?_, ?_, ⟨"no SSH client available", ?_⟩, ?_⟩
    · simp [Bootstrap, hm, h]
    · simp [Bootstrap, hm, h]
    · simp [Bootstrap, hm, h]
    · intro h2
      simp [Bootstrap, hm, h]

/-- Claim C10 witness: instantiation at the example environment whose
default client is nil and whose earlier steps all succeed. -/
theorem bootstrap_nil_client_spec_witness :
    (Bootstrap bootstrapEnvEx).stderrWrites = []
  ∧ (Bootstrap bootstrapEnvEx).instancesStarted = 0
  ∧ (∃ e, (Bootstrap bootstrapEnvEx).result = .error e)
  ∧ (bootstrapEnvEx.matchTools = .ok () →
      (Bootstrap bootstrapEnvEx).result = .error "no SSH client available") :=
  bootstrap_nil_client_spec bootstrapEnvEx rfl

end JujuCommon
